import Mathlib

/-!
Shallow embedding of the federated-learning round coordinator
(`src/server/server.py` and the Flask callback handlers in
`src/server/__init__.py`).

Modelling conventions:
* Tensors / numpy arrays are lists of rationals; a participant's reported
  parameter set is either an MNIST weight/bias pair or a single chest-x-ray
  weight array.
* The `training_clients` dict (keyed by `client_url`, insertion ordered) is a
  list of `TrainingClient` records in insertion order; iteration over
  `.values()` is iteration over the list.
* Python exceptions become `Except (String × Server)`: the error carries the
  exception name and the coordinator state at the moment the exception is
  raised (mutations performed before the raise are visible in it).
* `torch.stack` / `np.stack` on an empty list raise; this is modelled by
  `stackMean` returning an error on `[]`.
* The status enums (`ClientTrainingStatus`, `ServerStatus`, `TrainingType`),
  `TrainingClient` and `FederatedLearningConfig` come from modules that only
  exist as imports here; they are modelled from the spec (the four
  per-participant states of §4.2, the three server states, the four training
  variants plus arbitrary unknown strings, a client record created with
  status idle and no parameters).
-/

inductive ClientTrainingStatus where
  | IDLE
  | TRAINING_REQUESTED
  | TRAINING_FINISHED
  | TRAINING_REQUEST_ERROR
deriving DecidableEq, Repr

inductive ServerStatus where
  | IDLE
  | CLIENTS_TRAINING
  | UPDATING_MODEL_PARAMS
deriving DecidableEq, Repr

inductive TrainingType where
  | MNIST
  | DETERMINISTIC_MNIST
  | GOSSIP_MNIST
  | CHEST_X_RAY_PNEUMONIA
  | UNKNOWN (name : String)
deriving DecidableEq, Repr

/-- A reported parameter set: a weight/bias pair for the MNIST variants, a
single weight array for the chest-x-ray variant. -/
inductive ModelParams where
  | mnistParams (weights bias : List ℚ)
  | chestParams (weights : List ℚ)
deriving DecidableEq, Repr

/-- Modelled from the spec: `TrainingClient` (module `training_client.py` is
not under src/) is a record with `client_url`, `client_id`, a `status`
initialised to idle on creation, and the last reported `model_params`
(initially none). -/
structure TrainingClient where
  client_url : String
  client_id : Nat
  status : ClientTrainingStatus
  model_params : Option ModelParams
deriving DecidableEq, Repr

/-- Modelled from the spec: immutable per-round training configuration
(`federated_learning_config.py` is not under src/). -/
structure FederatedLearningConfig where
  learning_rate : ℚ
  epochs : Nat
  batch_size : Nat
deriving DecidableEq, Repr

structure Server where
  mnist_model_params : Option (List ℚ × List ℚ)
  chest_x_ray_model_params : Option (List ℚ)
  training_clients : List TrainingClient
  status : ServerStatus
  round : Nat
deriving DecidableEq, Repr

/-- Outcome of one outbound `POST <client_url>/training` call: an HTTP
acknowledgement with some status code, or a transport failure (the
`aiohttp` call raises). -/
inductive DispatchResponse where
  | ok_status (code : Nat)
  | transportFailure
deriving DecidableEq, Repr

/-- Elementwise vector sum (zip of `+`), as used by stacking tensors. -/
def vecAdd (a b : List ℚ) : List ℚ := List.zipWith (· + ·) a b

/-- Model of `torch.stack(xs).mean(0)` / `np.stack(xs).mean(0)`: elementwise
arithmetic mean of the stacked vectors; raises on an empty list. -/
def stackMean : List (List ℚ) → Except String (List ℚ)
  | [] => .error "RuntimeError: stack expects a non-empty TensorList"
  | l :: rest => .ok ((rest.foldl vecAdd l).map (fun x => x / ((rest.length : ℚ) + 1)))

/-- The fixed training-configuration table of `start_training`
(src/server/server.py lines 68-79): `none` models the Python
`federated_learning_config = None` that survives all branches for an
unknown training type. -/
def flConfig : TrainingType → Option FederatedLearningConfig
  | .MNIST => some ⟨1, 20, 256⟩
  | .DETERMINISTIC_MNIST => some ⟨1, 20, 256⟩
  | .GOSSIP_MNIST => some ⟨1, 20, 256⟩
  | .CHEST_X_RAY_PNEUMONIA => some ⟨1 / 10000, 1, 2⟩
  | .UNKNOWN _ => none

/-- The loop body of `Server.can_update_central_model_params`
(src/server/server.py lines 181-186), over the client list. -/
def quorumAll (cs : List TrainingClient) : Bool :=
  cs.all (fun c =>
    decide (c.status = ClientTrainingStatus.TRAINING_FINISHED ∨
            c.status = ClientTrainingStatus.TRAINING_REQUEST_ERROR))

/-- Embedding of `Server.can_update_central_model_params` (src/server/server.py 181-186). -/
def Server.can_update_central_model_params (s : Server) : Bool :=
  quorumAll s.training_clients

/-- Embedding of `Server.can_do_training` (src/server/server.py 207-213). -/
def Server.can_do_training (s : Server) : Bool :=
  s.training_clients.all (fun c =>
    decide (c.status = ClientTrainingStatus.IDLE ∨
            c.status = ClientTrainingStatus.TRAINING_REQUEST_ERROR))

/-- Mutating `training_client.status` for the record keyed by `url` in the
registry (registry urls are unique, so at most one record changes). -/
def set_client_status (cs : List TrainingClient) (url : String)
    (st : ClientTrainingStatus) : List TrainingClient :=
  cs.map (fun c => if c.client_url = url then { c with status := st } else c)

/-- The collection loop of the MNIST branch of
`Server.update_server_model_params` (src/server/server.py 157-164): walk the
registry, and for each client in `TRAINING_FINISHED` status append
`model_params[0]` to the received weights and `model_params[1]` to the
received biases and reset the client to `IDLE`; other clients are left
untouched. Indexing into an absent or chest-shaped parameter record raises,
as `training_client.model_params[0]` would. -/
def mnistGather : List TrainingClient →
    Except String (List (List ℚ) × List (List ℚ) × List TrainingClient)
  | [] => .ok ([], [], [])
  | c :: rest =>
    if c.status = ClientTrainingStatus.TRAINING_FINISHED then
      match c.model_params with
      | some (.mnistParams w b) =>
        match mnistGather rest with
        | .ok (ws, bs, cs) =>
          .ok (w :: ws, b :: bs, { c with status := ClientTrainingStatus.IDLE } :: cs)
        | .error e => .error e
      | _ => .error "TypeError: object is not subscriptable"
    else
      match mnistGather rest with
      | .ok (ws, bs, cs) => .ok (ws, bs, c :: cs)
      | .error e => .error e

/-- The collection loop of the chest-x-ray branch of
`Server.update_server_model_params` (src/server/server.py 170-174). -/
def chestGather : List TrainingClient →
    Except String (List (List ℚ) × List TrainingClient)
  | [] => .ok ([], [])
  | c :: rest =>
    if c.status = ClientTrainingStatus.TRAINING_FINISHED then
      match c.model_params with
      | some (.chestParams w) =>
        match chestGather rest with
        | .ok (ws, cs) =>
          .ok (w :: ws, { c with status := ClientTrainingStatus.IDLE } :: cs)
        | .error e => .error e
      | _ => .error "TypeError: unexpected model params shape"
    else
      match chestGather rest with
      | .ok (ws, cs) => .ok (ws, c :: cs)
      | .error e => .error e

/-- Embedding of `Server.update_server_model_params` (src/server/server.py 147-179).
If the quorum predicate holds the server status is set to
`UPDATING_MODEL_PARAMS`; for the centralized variants the finished clients
parameters are collected (resetting those clients to `IDLE`), stacked and
averaged into the central parameter set, and the status is set back to
`IDLE`. For any other training type nothing is aggregated and the status is
simply set to `IDLE`. Without quorum the call is a no-op. Errors carry the
state as mutated up to the raise point. -/
def Server.update_server_model_params (s : Server) (t : TrainingType) :
    Except (String × Server) Server :=
  if quorumAll s.training_clients then
    let s1 : Server := { s with status := ServerStatus.UPDATING_MODEL_PARAMS }
    match t with
    | .MNIST | .DETERMINISTIC_MNIST =>
      match mnistGather s1.training_clients with
      | .error e => .error (e, s1)
      | .ok (ws, bs, cs1) =>
        let s2 : Server := { s1 with training_clients := cs1 }
        match stackMean ws with
        | .error e => .error (e, s2)
        | .ok nw =>
          match stackMean bs with
          | .error e => .error (e, s2)
          | .ok nb =>
            .ok { s2 with mnist_model_params := some (nw, nb),
                          status := ServerStatus.IDLE }
    | .CHEST_X_RAY_PNEUMONIA =>
      match chestGather s1.training_clients with
      | .error e => .error (e, s1)
      | .ok (ws, cs1) =>
        let s2 : Server := { s1 with training_clients := cs1 }
        match stackMean ws with
        | .error e => .error (e, s2)
        | .ok nw =>
          .ok { s2 with chest_x_ray_model_params := some nw,
                        status := ServerStatus.IDLE }
    | _ => .ok { s1 with status := ServerStatus.IDLE }
  else .ok s

/-- Embedding of `Server.update_client_model_params` (src/server/server.py 123-133):
store the reported parameters on the client record, set it to
`TRAINING_FINISHED`, then attempt the central update. -/
def Server.update_client_model_params (s : Server) (t : TrainingType)
    (url : String) (p : ModelParams) : Except (String × Server) Server :=
  let s1 : Server :=
    { s with training_clients :=
        s.training_clients.map (fun c =>
          if c.client_url = url then
            { c with model_params := some p,
                     status := ClientTrainingStatus.TRAINING_FINISHED }
          else c) }
  s1.update_server_model_params t

/-- Embedding of `Server.finish_round` (src/server/server.py 138-145): set the calling
client to `TRAINING_FINISHED`; if the quorum predicate now holds and the
variant is `GOSSIP_MNIST`, set the server and every client to `IDLE`. -/
def Server.finish_round (s : Server) (t : TrainingType) (url : String) : Server :=
  if quorumAll (set_client_status s.training_clients url
        ClientTrainingStatus.TRAINING_FINISHED) ∧
      t = TrainingType.GOSSIP_MNIST then
    { s with status := ServerStatus.IDLE,
             training_clients :=
               ((set_client_status s.training_clients url
                   ClientTrainingStatus.TRAINING_FINISHED).map
                 (fun c => { c with status := ClientTrainingStatus.IDLE })) }
  else
    { s with training_clients :=
        (set_client_status s.training_clients url
          ClientTrainingStatus.TRAINING_FINISHED) }

/-- Embedding of `Server.do_training_client_request` (src/server/server.py 108-121): the
client is set to `TRAINING_REQUESTED` just before the post; a non-200
acknowledgement sets it to `TRAINING_REQUEST_ERROR` and immediately attempts
the central update; a transport failure raises out of the coroutine with the
client still in `TRAINING_REQUESTED` (there is no try/except around the
`aiohttp` call). -/
def Server.do_training_client_request (s : Server) (t : TrainingType)
    (url : String) (resp : DispatchResponse) : Except (String × Server) Server :=
  let s1 : Server :=
    { s with training_clients :=
        (set_client_status s.training_clients url
          ClientTrainingStatus.TRAINING_REQUESTED) }
  match resp with
  | .transportFailure => .error ("aiohttp.ClientConnectorError", s1)
  | .ok_status code =>
    if code ≠ 200 then
      let s2 : Server :=
        { s1 with training_clients :=
            (set_client_status s1.training_clients url
              ClientTrainingStatus.TRAINING_REQUEST_ERROR) }
      s2.update_server_model_params t
    else .ok s1

/-- Sequential model of the awaited dispatch fan-out of `start_training`:
one `do_training_client_request` per registered client in registry order,
each consuming its own `DispatchResponse`; an uncaught exception in a task
propagates out of `asyncio.gather`. -/
def runDispatches (t : TrainingType) :
    Server → List (String × DispatchResponse) → Except (String × Server) Server
  | s, [] => .ok s
  | s, (url, r) :: rest =>
    match s.do_training_client_request t url r with
    | .ok s1 => runDispatches t s1 rest
    | .error e => .error e

/-- Embedding of `Server.start_training` (src/server/server.py 50-106): if the server is
not `IDLE` or no client is registered, only log and change nothing.
Otherwise increment the round counter, look up the training configuration
(reading `learning_rate` off the `None` config of an unknown training type
raises `AttributeError`), set the status to `CLIENTS_TRAINING` and run the
dispatch fan-out, pairing registered clients with their dispatch outcomes in
registry order. -/
def Server.start_training (s : Server) (t : TrainingType)
    (resps : List DispatchResponse) : Except (String × Server) Server :=
  if s.status ≠ ServerStatus.IDLE then .ok s
  else if s.training_clients.length = 0 then .ok s
  else
    let s1 : Server := { s with round := s.round + 1 }
    match flConfig t with
    | none => .error ("AttributeError: NoneType has no attribute learning_rate", s1)
    | some _ =>
      let s2 : Server := { s1 with status := ServerStatus.CLIENTS_TRAINING }
      runDispatches t s2
        ((s2.training_clients.map (fun c => c.client_url)).zip resps)

/-- Embedding of `Server.register_client` (src/server/server.py 188-196): unknown url is
inserted with `id = len(training_clients) + 1`; a known url keeps its record
and only has its status reset to idle. -/
def Server.register_client (s : Server) (url : String) : Server :=
  match s.training_clients.find? (fun c => c.client_url = url) with
  | none =>
    { s with training_clients :=
        (s.training_clients ++
          [⟨url, s.training_clients.length + 1, ClientTrainingStatus.IDLE, none⟩]) }
  | some _ =>
    { s with training_clients :=
        (set_client_status s.training_clients url ClientTrainingStatus.IDLE) }

/-- Embedding of `Server.unregister_client` (src/server/server.py 198-205): `pop` the
record if present; the `KeyError` of an absent url is caught and ignored. -/
def Server.unregister_client (s : Server) (url : String) : Server :=
  { s with training_clients :=
      (s.training_clients.filter (fun c => ¬ c.client_url = url)) }

namespace App

/-- The `PUT /model_params` handler `update_weights`
(src/server/__init__.py 58-69): resolve the client by url — a `KeyError`
(unknown url) is caught and answered with 401 and no state change — then
run `update_client_model_params`; any exception it raises (not a
`KeyError`) propagates. Returns the HTTP status and the resulting state. -/
def update_weights (s : Server) (url : String) (t : TrainingType)
    (p : ModelParams) : Except (String × Server) (Nat × Server) :=
  match s.training_clients.find? (fun c => c.client_url = url) with
  | none => .ok (401, s)
  | some _ =>
    match s.update_client_model_params t url p with
    | .ok s1 => .ok (200, s1)
    | .error e => .error e

/-- The `POST /finish_round` handler (src/server/__init__.py 71-81): for a
non-gossip training type answer 400 without touching the registry; for
`GOSSIP_MNIST` the lookup `server.training_clients[client_url]` is NOT
wrapped in a try/except, so an unknown url raises an uncaught `KeyError`. -/
def finish_round (s : Server) (url : String) (t : TrainingType) :
    Except (String × Server) (Nat × Server) :=
  if t = TrainingType.GOSSIP_MNIST then
    match s.training_clients.find? (fun c => c.client_url = url) with
    | none => .error ("KeyError", s)
    | some _ => .ok (200, s.finish_round t url)
  else .ok (400, s)

end App

/-- Spec-side extraction used in theorem statements: the weight/bias pairs of
exactly the clients currently in `TRAINING_FINISHED` status (clients in any
other status, in particular `TRAINING_REQUEST_ERROR`, contribute nothing). -/
def finishedMnist (cs : List TrainingClient) : List (List ℚ × List ℚ) :=
  cs.filterMap (fun c =>
    if c.status = ClientTrainingStatus.TRAINING_FINISHED then
      match c.model_params with
      | some (.mnistParams w b) => some (w, b)
      | _ => none
    else none)

/-- Whether a client record carries an MNIST-shaped parameter set. -/
def hasMnistParams (c : TrainingClient) : Bool :=
  match c.model_params with
  | some (.mnistParams _ _) => true
  | _ => false

/-- Spec-side description of the client-status effect of the MNIST
aggregation loop: every `TRAINING_FINISHED` client is reset to `IDLE`,
every other client keeps its status. -/
def resetFinished (cs : List TrainingClient) : List TrainingClient :=
  cs.map (fun c =>
    if c.status = ClientTrainingStatus.TRAINING_FINISHED then
      { c with status := ClientTrainingStatus.IDLE }
    else c)

/-- Total elementwise arithmetic mean of a nonempty list of vectors; the
value `stackMean` computes when it does not raise. -/
def meanVecs : List (List ℚ) → List ℚ
  | [] => []
  | l :: rest => (rest.foldl vecAdd l).map (fun x => x / ((rest.length : ℚ) + 1))

/-- The coordinator state an operation leaves behind, whether it returns
normally or raises. -/
def resultState : Except (String × Server) Server → Server
  | .ok r => r
  | .error (_, r) => r

lemma stackMean_of_ne_nil (ls : List (List ℚ)) (h : ls ≠ []) :
    stackMean ls = .ok (meanVecs ls) := by
  cases ls with
  | nil => exact absurd rfl h
  | cons l rest => rfl

lemma mnistGather_eq (cs : List TrainingClient)
    (hp : ∀ c ∈ cs, c.status = ClientTrainingStatus.TRAINING_FINISHED →
      hasMnistParams c = true) :
    mnistGather cs =
      .ok ((finishedMnist cs).map Prod.fst, (finishedMnist cs).map Prod.snd,
           resetFinished cs) := by
  induction cs with
  | nil => rfl
  | cons c rest ih =>
    have hrest : ∀ x ∈ rest, x.status = ClientTrainingStatus.TRAINING_FINISHED →
        hasMnistParams x = true := fun x hx => hp x (List.mem_cons_of_mem _ hx)
    by_cases hst : c.status = ClientTrainingStatus.TRAINING_FINISHED
    · have hm := hp c (List.mem_cons_self _ _) hst
      unfold hasMnistParams at hm
      match hmp : c.model_params with
      | some (.mnistParams w b) =>
        simp [mnistGather, hst, hmp, ih hrest, finishedMnist, resetFinished]
      | some (.chestParams w) => rw [hmp] at hm; simp at hm
      | none => rw [hmp] at hm; simp at hm
    · simp [mnistGather, hst, ih hrest, finishedMnist, resetFinished]

/-- Whether a client record carries a chest-x-ray-shaped parameter set. -/
def hasChestParams (c : TrainingClient) : Bool :=
  match c.model_params with
  | some (.chestParams _) => true
  | _ => false

/-- Spec-side extraction used in theorem statements: the chest-x-ray weight
arrays of exactly the clients currently in `TRAINING_FINISHED` status. -/
def finishedChest (cs : List TrainingClient) : List (List ℚ) :=
  cs.filterMap (fun c =>
    if c.status = ClientTrainingStatus.TRAINING_FINISHED then
      match c.model_params with
      | some (.chestParams w) => some w
      | _ => none
    else none)

lemma chestGather_eq (cs : List TrainingClient)
    (hp : ∀ c ∈ cs, c.status = ClientTrainingStatus.TRAINING_FINISHED →
      hasChestParams c = true) :
    chestGather cs = .ok (finishedChest cs, resetFinished cs) := by
  induction cs with
  | nil => rfl
  | cons c rest ih =>
    have hrest : ∀ x ∈ rest, x.status = ClientTrainingStatus.TRAINING_FINISHED →
        hasChestParams x = true := fun x hx => hp x (List.mem_cons_of_mem _ hx)
    by_cases hst : c.status = ClientTrainingStatus.TRAINING_FINISHED
    · have hm := hp c (List.mem_cons_self _ _) hst
      unfold hasChestParams at hm
      match hmp : c.model_params with
      | some (.chestParams w) =>
        simp [chestGather, hst, hmp, ih hrest, finishedChest, resetFinished]
      | some (.mnistParams w b) => rw [hmp] at hm; simp at hm
      | none => rw [hmp] at hm; simp at hm
    · simp [chestGather, hst, ih hrest, finishedChest, resetFinished]

/-- The client stuck in `TRAINING_REQUEST_ERROR` after its dispatch failed. -/
def erroredClient : TrainingClient :=
  ⟨"http://client1", 1, ClientTrainingStatus.TRAINING_REQUEST_ERROR, none⟩

/-- A round in which the only registered participant errored: the server has
dispatched (status `CLIENTS_TRAINING`, round 1) and holds central MNIST
parameters `([5], [7])`. -/
def sAllErrored : Server :=
  ⟨some ([5], [7]), none, [erroredClient], ServerStatus.CLIENTS_TRAINING, 1⟩

/-- C1: the spec says that with zero eligible contributions (every
participant in `TRAINING_REQUEST_ERROR`) aggregation leaves the central
parameters unchanged and closes the round without raising. The code instead
reaches `torch.stack(received_weights)` with an empty list, which raises a
`RuntimeError`; the central parameters are untouched only because the raise
happens before the assignment, and the server is left in
`UPDATING_MODEL_PARAMS` rather than closing the round. -/
theorem C1_all_errored_aggregation_raises :
    sAllErrored.update_server_model_params TrainingType.MNIST =
      .error ("RuntimeError: stack expects a non-empty TensorList",
        { sAllErrored with status := ServerStatus.UPDATING_MODEL_PARAMS }) := rfl

/-- C10: `can_do_training` returns true exactly when no registered client is
in `TRAINING_REQUESTED` or `TRAINING_FINISHED` status; equivalently every
client is `IDLE` or `TRAINING_REQUEST_ERROR`, so a client left in
`TRAINING_REQUEST_ERROR` by a completed aggregation does not make the
coordinator report not-ready. -/
theorem C10_can_do_training_iff (s : Server) :
    s.can_do_training = true ↔
      ∀ c ∈ s.training_clients,
        c.status ≠ ClientTrainingStatus.TRAINING_REQUESTED ∧
        c.status ≠ ClientTrainingStatus.TRAINING_FINISHED := by
  simp only [Server.can_do_training, List.all_eq_true, decide_eq_true_eq]
  constructor
  · intro h c hc
    rcases h c hc with h1 | h1 <;> rw [h1] <;> exact ⟨by simp, by simp⟩
  · intro h c hc
    rcases h c hc with ⟨h1, h2⟩
    cases hst : c.status with
    | IDLE => exact Or.inl rfl
    | TRAINING_REQUESTED => exact absurd hst h1
    | TRAINING_FINISHED => exact absurd hst h2
    | TRAINING_REQUEST_ERROR => exact Or.inr rfl

/-- A single registered, idle client. -/
def idleClient : TrainingClient :=
  ⟨"http://client1", 1, ClientTrainingStatus.IDLE, none⟩

/-- An idle coordinator with one registered idle client and central MNIST
parameters `([5], [7])`. -/
def sOneIdle : Server :=
  ⟨some ([5], [7]), none, [idleClient], ServerStatus.IDLE, 0⟩

/-- C6 counterexample: the claim says any inbound callback with an unknown
`client_url` fails with an authorization/lookup CLIENT error without
crashing. The round-finish handler has no try/except around the registry
lookup, so an unknown url raises an uncaught `KeyError` (an HTTP 500 server
crash), not a client error. -/
theorem C6_counterexample :
    App.finish_round sOneIdle "http://nobody" TrainingType.GOSSIP_MNIST =
      .error ("KeyError", sOneIdle) := rfl

/-- C6 amended: a parameter-report callback (`PUT /model_params`) with an
unknown `client_url` is answered 401 with no state change; a round-finish
callback (`POST /finish_round`, gossip variant) with an unknown
`client_url` instead raises an uncaught `KeyError`, also with no state
change. -/
theorem C6_unknown_url_callbacks (s : Server) (url : String) (t : TrainingType)
    (p : ModelParams)
    (h : s.training_clients.find? (fun c => c.client_url = url) = none) :
    App.update_weights s url t p = .ok (401, s) ∧
    App.finish_round s url TrainingType.GOSSIP_MNIST = .error ("KeyError", s) := by
  constructor
  · simp [App.update_weights, h]
  · simp [App.finish_round, h]

/-- C6 witness: the amended claim at a concrete unknown url. -/
theorem C6_witness :
    App.update_weights sOneIdle "http://nobody" TrainingType.MNIST
        (ModelParams.mnistParams [0] [0]) = .ok (401, sOneIdle) ∧
    App.finish_round sOneIdle "http://nobody" TrainingType.GOSSIP_MNIST =
      .error ("KeyError", sOneIdle) :=
  C6_unknown_url_callbacks sOneIdle "http://nobody" TrainingType.MNIST
    (ModelParams.mnistParams [0] [0]) rfl

/-- C8 counterexample: the claim says an unrecognized training type on an
idle server with a non-empty registry raises no exception and changes no
state. In the code the round counter is incremented first, and reading
`learning_rate` off the still-`None` configuration then raises
`AttributeError`, so an exception IS raised and the round counter HAS
changed. -/
theorem C8_counterexample :
    sOneIdle.start_training (TrainingType.UNKNOWN "FOO")
        [DispatchResponse.ok_status 200] =
      .error ("AttributeError: NoneType has no attribute learning_rate",
        { sOneIdle with round := 1 }) := rfl

/-- C8 amended: for a training type outside the fixed configuration table,
`start_training` on an idle server with a non-empty registry raises an
`AttributeError` after incrementing the round counter; no dispatch occurs
and the status, registry and central parameters are otherwise unchanged. -/
theorem C8_unknown_training_type (s : Server) (name : String)
    (resps : List DispatchResponse)
    (h1 : s.status = ServerStatus.IDLE) (h2 : s.training_clients ≠ []) :
    s.start_training (TrainingType.UNKNOWN name) resps =
      .error ("AttributeError: NoneType has no attribute learning_rate",
        { s with round := s.round + 1 }) := by
  have hlen : s.training_clients.length ≠ 0 :=
    Nat.pos_iff_ne_zero.mp (List.length_pos.mpr h2)
  simp [Server.start_training, h1, hlen, flConfig]

/-- C8 witness: the amended claim at a concrete idle server. -/
theorem C8_witness :
    sOneIdle.start_training (TrainingType.UNKNOWN "BAD") [] =
      .error ("AttributeError: NoneType has no attribute learning_rate",
        { sOneIdle with round := 1 }) :=
  C8_unknown_training_type sOneIdle "BAD" [] rfl (by simp [sOneIdle])

/-- C4 counterexample: the claim says a transport failure, like a non-success
acknowledgement, puts the participant in `TRAINING_REQUEST_ERROR`. The
`aiohttp` call is not wrapped in any try/except, so a transport failure
propagates out of the coroutine with the participant still in
`TRAINING_REQUESTED`, and no aggregation is attempted. -/
theorem C4_counterexample :
    sOneIdle.do_training_client_request TrainingType.MNIST "http://client1"
        DispatchResponse.transportFailure =
      .error ("aiohttp.ClientConnectorError",
        { sOneIdle with training_clients :=
            [{ idleClient with status := ClientTrainingStatus.TRAINING_REQUESTED }] }) ∧
    ClientTrainingStatus.TRAINING_REQUESTED ≠
      ClientTrainingStatus.TRAINING_REQUEST_ERROR :=
  ⟨rfl, by decide⟩

/-- C4 amended: a non-success acknowledgement sets the participant to
`TRAINING_REQUEST_ERROR` and immediately attempts aggregation; a transport
failure instead raises with the participant left in `TRAINING_REQUESTED`
and no aggregation attempt. A participant in `TRAINING_REQUEST_ERROR`
contributes no parameters to the average (regardless of stale data in its
record) while satisfying the quorum predicate exactly like a finished one. -/
theorem C4_dispatch_failure_behaviour (s : Server) (t : TrainingType)
    (url : String) (code : Nat) (c : TrainingClient) (cs : List TrainingClient)
    (hcode : code ≠ 200)
    (herr : c.status = ClientTrainingStatus.TRAINING_REQUEST_ERROR) :
    (s.do_training_client_request t url (DispatchResponse.ok_status code) =
      Server.update_server_model_params
        { s with training_clients :=
            (set_client_status
              (set_client_status s.training_clients url
                ClientTrainingStatus.TRAINING_REQUESTED)
              url ClientTrainingStatus.TRAINING_REQUEST_ERROR) } t) ∧
    (s.do_training_client_request t url DispatchResponse.transportFailure =
      .error ("aiohttp.ClientConnectorError",
        { s with training_clients :=
            (set_client_status s.training_clients url
              ClientTrainingStatus.TRAINING_REQUESTED) })) ∧
    finishedMnist (c :: cs) = finishedMnist cs ∧
    quorumAll (c :: cs) = quorumAll cs := by
  refine ⟨?_, rfl, ?_, ?_⟩
  · simp [Server.do_training_client_request, hcode]
  · simp [finishedMnist, herr]
  · simp [quorumAll, herr]

/-- C4 witness: the amended claim at a concrete server, a 500
acknowledgement and a concrete errored participant. -/
theorem C4_witness :
    (sOneIdle.do_training_client_request TrainingType.MNIST "http://client1"
        (DispatchResponse.ok_status 500) =
      Server.update_server_model_params
        { sOneIdle with training_clients :=
            (set_client_status
              (set_client_status sOneIdle.training_clients "http://client1"
                ClientTrainingStatus.TRAINING_REQUESTED)
              "http://client1" ClientTrainingStatus.TRAINING_REQUEST_ERROR) }
        TrainingType.MNIST) ∧
    (sOneIdle.do_training_client_request TrainingType.MNIST "http://client1"
        DispatchResponse.transportFailure =
      .error ("aiohttp.ClientConnectorError",
        { sOneIdle with training_clients :=
            (set_client_status sOneIdle.training_clients "http://client1"
              ClientTrainingStatus.TRAINING_REQUESTED) })) ∧
    finishedMnist [erroredClient] = finishedMnist [] ∧
    quorumAll [erroredClient] = quorumAll [] :=
  C4_dispatch_failure_behaviour sOneIdle TrainingType.MNIST "http://client1"
    500 erroredClient [] (by decide) rfl

/-- An initial coordinator: empty registry, idle, round 0, some central
MNIST parameters. -/
def sEmpty : Server := ⟨some ([0], [0]), none, [], ServerStatus.IDLE, 0⟩

lemma range'_one_concat (n : Nat) :
    List.range' 1 n ++ [n + 1] = List.range' 1 (n + 1) := by
  have h : List.range' 1 (n + 1) = List.range' 1 n ++ [1 + 1 * n] :=
    List.range'_concat 1 n
  rw [h, Nat.one_mul, Nat.add_comm]

lemma register_ids_invariant (s : Server) (u : String)
    (h : s.training_clients.map (fun c => c.client_id) =
      List.range' 1 s.training_clients.length) :
    (s.register_client u).training_clients.map (fun c => c.client_id) =
      List.range' 1 (s.register_client u).training_clients.length := by
  unfold Server.register_client
  cases hf : s.training_clients.find? (fun c => decide (c.client_url = u)) with
  | none => simp [hf, h, range'_one_concat]
  | some c =>
    have hids : (set_client_status s.training_clients u
        ClientTrainingStatus.IDLE).map (fun c => c.client_id) =
        s.training_clients.map (fun c => c.client_id) := by
      simp only [set_client_status, List.map_map]
      congr 1
      funext x
      by_cases hx : x.client_url = u <;> simp [hx]
    have hlen : (set_client_status s.training_clients u
        ClientTrainingStatus.IDLE).length = s.training_clients.length := by
      simp [set_client_status]
    simp only [hf, hids, hlen, h]

lemma foldl_register_ids (urls : List String) :
    ∀ s : Server,
      s.training_clients.map (fun c => c.client_id) =
        List.range' 1 s.training_clients.length →
      (urls.foldl Server.register_client s).training_clients.map
          (fun c => c.client_id) =
        List.range' 1
          (urls.foldl Server.register_client s).training_clients.length := by
  induction urls with
  | nil => intro s h; exact h
  | cons u rest ih =>
    intro s h
    exact ih (s.register_client u) (register_ids_invariant s u h)

/-- C5 counterexample: the claim says registered participant ids stay unique
under every register/unregister sequence. Ids are assigned as
`len(training_clients) + 1`, so after register A, register B, unregister A,
register C the registry holds B and C both with id 2. -/
theorem C5_counterexample :
    ((((sEmpty.register_client "http://a").register_client
        "http://b").unregister_client "http://a").register_client
        "http://c").training_clients.map (fun c => c.client_id) = [2, 2] := rfl

/-- C5 amended: `register` never fails, assigns `id = count + 1` to an
unknown url, and on a known url keeps the record (same id, same url, same
parameters, registry length unchanged) while resetting its status to idle;
ids of registered participants are unique in any sequence of registrations
starting from a registry whose ids are the canonical `1..count` (in
particular from an empty registry, i.e. when no unregistration has
occurred). After an unregistration a later registration can duplicate an id,
as the counterexample shows. -/
theorem C5_registration (s : Server) (urls : List String) (u v : String)
    (c : TrainingClient)
    (hinv : s.training_clients.map (fun x => x.client_id) =
      List.range' 1 s.training_clients.length)
    (hc : c ∈ s.training_clients) (hcu : c.client_url = u)
    (hv : s.training_clients.find? (fun x => decide (x.client_url = v)) = none) :
    (((urls.foldl Server.register_client s).training_clients.map
        (fun x => x.client_id)).Nodup) ∧
    ({ c with status := ClientTrainingStatus.IDLE } ∈
        (s.register_client u).training_clients) ∧
    ((s.register_client u).training_clients.length =
        s.training_clients.length) ∧
    ((s.register_client v).training_clients.map (fun x => x.client_id) =
        s.training_clients.map (fun x => x.client_id) ++
          [s.training_clients.length + 1]) := by
  refine ⟨?_, ?_, ?_, ?_⟩
  · rw [foldl_register_ids urls s hinv]
    exact List.nodup_range' 1 _ 1 Nat.one_pos
  · have hf : s.training_clients.find?
        (fun x => decide (x.client_url = u)) ≠ none := by
      intro hnone
      have := List.find?_eq_none.mp hnone c hc
      simp [hcu] at this
    unfold Server.register_client
    cases hfind : s.training_clients.find? (fun x => decide (x.client_url = u)) with
    | none => exact absurd hfind hf
    | some c0 =>
      simp only [set_client_status]
      have himg : ({ c with status := ClientTrainingStatus.IDLE } : TrainingClient) =
          (fun x => if x.client_url = u then
            { x with status := ClientTrainingStatus.IDLE } else x) c := by
        simp [hcu]
      rw [himg]
      exact List.mem_map_of_mem _ hc
  · have hf : s.training_clients.find?
        (fun x => decide (x.client_url = u)) ≠ none := by
      intro hnone
      have := List.find?_eq_none.mp hnone c hc
      simp [hcu] at this
    unfold Server.register_client
    cases hfind : s.training_clients.find? (fun x => decide (x.client_url = u)) with
    | none => exact absurd hfind hf
    | some c0 => simp [set_client_status]
  · unfold Server.register_client
    rw [hv]
    simp

/-- C5 witness: the amended claim on a concrete registry holding one
client; a fresh registration of a second url, a re-registration of the
first and a register-only sequence. -/
theorem C5_witness :
    ((((["http://b"] : List String).foldl Server.register_client
        (sEmpty.register_client "http://a")).training_clients.map
        (fun x => x.client_id)).Nodup) ∧
    (({ client_url := "http://a", client_id := 1,
        status := ClientTrainingStatus.IDLE, model_params := none } :
          TrainingClient) ∈
        ((sEmpty.register_client "http://a").register_client
          "http://a").training_clients) ∧
    (((sEmpty.register_client "http://a").register_client
        "http://a").training_clients.length =
      (sEmpty.register_client "http://a").training_clients.length) ∧
    (((sEmpty.register_client "http://a").register_client
        "http://b").training_clients.map (fun x => x.client_id) =
      (sEmpty.register_client "http://a").training_clients.map
        (fun x => x.client_id) ++
        [(sEmpty.register_client "http://a").training_clients.length + 1]) :=
  C5_registration (sEmpty.register_client "http://a") ["http://b"]
    "http://a" "http://b"
    ⟨"http://a", 1, ClientTrainingStatus.IDLE, none⟩
    rfl (by simp [sEmpty, Server.register_client]) rfl rfl

/-- A finished client holding reported MNIST parameters `([1], [1])`. -/
def finishedClientA : TrainingClient :=
  ⟨"http://clientA", 1, ClientTrainingStatus.TRAINING_FINISHED,
   some (ModelParams.mnistParams [1] [1])⟩

/-- An errored client registered alongside `finishedClientA`. -/
def erroredClientB : TrainingClient :=
  ⟨"http://clientB", 2, ClientTrainingStatus.TRAINING_REQUEST_ERROR, none⟩

/-- A mid-round server where quorum holds with one finished and one errored
participant. -/
def sMixed : Server :=
  ⟨some ([5], [7]), none, [finishedClientA, erroredClientB],
   ServerStatus.CLIENTS_TRAINING, 1⟩

/-- C3 counterexample: the claim says aggregation resets EVERY registered
participant to `IDLE`. The aggregation loop only resets the clients it read
parameters from (the `TRAINING_FINISHED` ones); a participant in
`TRAINING_REQUEST_ERROR` keeps that status after the round closes. -/
theorem C3_counterexample :
    sMixed.update_server_model_params TrainingType.MNIST =
      .ok { sMixed with
              mnist_model_params := some ([1], [1]),
              training_clients :=
                [{ finishedClientA with status := ClientTrainingStatus.IDLE },
                 erroredClientB],
              status := ServerStatus.IDLE } ∧
    erroredClientB.status ≠ ClientTrainingStatus.IDLE := by
  constructor
  · simp [Server.update_server_model_params, sMixed, finishedClientA,
      erroredClientB, quorumAll, mnistGather, stackMean, vecAdd]
  · decide

/-- C3 amended: whenever quorum holds for a centralized variant — `MNIST`,
`DETERMINISTIC_MNIST` or `CHEST_X_RAY_PNEUMONIA` — with at least one
`TRAINING_FINISHED` participant, each finished participant carrying
parameters of the variant's shape, aggregation replaces that variant's
central parameter set with the elementwise arithmetic mean over exactly the
finished participants (weights averaged with weights, biases with biases),
resets each FINISHED participant to `IDLE` — participants in
`TRAINING_REQUEST_ERROR` keep their status — and sets the server status to
`IDLE`. -/
theorem C3_aggregation_behaviour (s : Server) (t : TrainingType)
    (hq : quorumAll s.training_clients = true)
    (hfin : ∃ c ∈ s.training_clients,
      c.status = ClientTrainingStatus.TRAINING_FINISHED) :
    ((t = TrainingType.MNIST ∨ t = TrainingType.DETERMINISTIC_MNIST) →
      (∀ c ∈ s.training_clients,
        c.status = ClientTrainingStatus.TRAINING_FINISHED →
          hasMnistParams c = true) →
      s.update_server_model_params t =
        .ok { s with
                mnist_model_params :=
                  some (meanVecs ((finishedMnist s.training_clients).map Prod.fst),
                        meanVecs ((finishedMnist s.training_clients).map Prod.snd)),
                training_clients := resetFinished s.training_clients,
                status := ServerStatus.IDLE }) ∧
    (t = TrainingType.CHEST_X_RAY_PNEUMONIA →
      (∀ c ∈ s.training_clients,
        c.status = ClientTrainingStatus.TRAINING_FINISHED →
          hasChestParams c = true) →
      s.update_server_model_params t =
        .ok { s with
                chest_x_ray_model_params :=
                  some (meanVecs (finishedChest s.training_clients)),
                training_clients := resetFinished s.training_clients,
                status := ServerStatus.IDLE }) := by
  constructor
  · intro hmt hp
    have hne : finishedMnist s.training_clients ≠ [] := by
      obtain ⟨c, hc, hst⟩ := hfin
      have hm := hp c hc hst
      intro hnil
      have hnone := List.filterMap_eq_nil_iff.mp hnil c hc
      unfold hasMnistParams at hm
      match hmp : c.model_params with
      | some (.mnistParams w b) => rw [hmp, if_pos hst] at hnone; simp at hnone
      | some (.chestParams w) => rw [hmp] at hm; simp at hm
      | none => rw [hmp] at hm; simp at hm
    have hws : (finishedMnist s.training_clients).map Prod.fst ≠ [] := by
      simpa using hne
    have hbs : (finishedMnist s.training_clients).map Prod.snd ≠ [] := by
      simpa using hne
    rcases hmt with h | h
    · subst h
      unfold Server.update_server_model_params
      rw [if_pos hq]
      simp only []
      rw [show ({ s with status := ServerStatus.UPDATING_MODEL_PARAMS } :
        Server).training_clients = s.training_clients from rfl]
      rw [mnistGather_eq s.training_clients hp]
      simp only []
      rw [stackMean_of_ne_nil _ hws, stackMean_of_ne_nil _ hbs]
    · subst h
      unfold Server.update_server_model_params
      rw [if_pos hq]
      simp only []
      rw [show ({ s with status := ServerStatus.UPDATING_MODEL_PARAMS } :
        Server).training_clients = s.training_clients from rfl]
      rw [mnistGather_eq s.training_clients hp]
      simp only []
      rw [stackMean_of_ne_nil _ hws, stackMean_of_ne_nil _ hbs]
  · intro ht hp
    subst ht
    have hne : finishedChest s.training_clients ≠ [] := by
      obtain ⟨c, hc, hst⟩ := hfin
      have hm := hp c hc hst
      intro hnil
      have hnone := List.filterMap_eq_nil_iff.mp hnil c hc
      unfold hasChestParams at hm
      match hmp : c.model_params with
      | some (.chestParams w) => rw [hmp, if_pos hst] at hnone; simp at hnone
      | some (.mnistParams w b) => rw [hmp] at hm; simp at hm
      | none => rw [hmp] at hm; simp at hm
    unfold Server.update_server_model_params
    rw [if_pos hq]
    simp only []
    rw [show ({ s with status := ServerStatus.UPDATING_MODEL_PARAMS } :
      Server).training_clients = s.training_clients from rfl]
    rw [chestGather_eq s.training_clients hp]
    simp only []
    rw [stackMean_of_ne_nil _ hne]

/-- Three finished clients reporting weight scalars 1, 2, 3 and bias
scalars 4, 5, 6. -/
def cW1 : TrainingClient :=
  ⟨"http://w1", 1, ClientTrainingStatus.TRAINING_FINISHED,
   some (ModelParams.mnistParams [1] [4])⟩

def cW2 : TrainingClient :=
  ⟨"http://w2", 2, ClientTrainingStatus.TRAINING_FINISHED,
   some (ModelParams.mnistParams [2] [5])⟩

def cW3 : TrainingClient :=
  ⟨"http://w3", 3, ClientTrainingStatus.TRAINING_FINISHED,
   some (ModelParams.mnistParams [3] [6])⟩

def sThree : Server :=
  ⟨some ([0], [0]), none, [cW1, cW2, cW3], ServerStatus.CLIENTS_TRAINING, 1⟩

/-- Three finished clients reporting chest-x-ray weight scalars 1, 2, 3. -/
def cX1 : TrainingClient :=
  ⟨"http://x1", 1, ClientTrainingStatus.TRAINING_FINISHED,
   some (ModelParams.chestParams [1])⟩

def cX2 : TrainingClient :=
  ⟨"http://x2", 2, ClientTrainingStatus.TRAINING_FINISHED,
   some (ModelParams.chestParams [2])⟩

def cX3 : TrainingClient :=
  ⟨"http://x3", 3, ClientTrainingStatus.TRAINING_FINISHED,
   some (ModelParams.chestParams [3])⟩

def sChestThree : Server :=
  ⟨some ([0], [0]), none, [cX1, cX2, cX3], ServerStatus.CLIENTS_TRAINING, 1⟩

/-- C3 witness: the amended claim at three finished MNIST participants and
at three finished chest-x-ray participants, together with the
averaging-correctness instance of the spec — weight scalars 1, 2, 3
average to 2 for both variants. -/
theorem C3_witness :
    (sThree.update_server_model_params TrainingType.MNIST =
      .ok { sThree with
              mnist_model_params :=
                some (meanVecs ((finishedMnist sThree.training_clients).map Prod.fst),
                      meanVecs ((finishedMnist sThree.training_clients).map Prod.snd)),
              training_clients := resetFinished sThree.training_clients,
              status := ServerStatus.IDLE }) ∧
    meanVecs ((finishedMnist sThree.training_clients).map Prod.fst) = [2] ∧
    (sChestThree.update_server_model_params TrainingType.CHEST_X_RAY_PNEUMONIA =
      .ok { sChestThree with
              chest_x_ray_model_params :=
                some (meanVecs (finishedChest sChestThree.training_clients)),
              training_clients := resetFinished sChestThree.training_clients,
              status := ServerStatus.IDLE }) ∧
    meanVecs (finishedChest sChestThree.training_clients) = [2] := by
  refine ⟨?_, ?_, ?_, ?_⟩
  · exact (C3_aggregation_behaviour sThree TrainingType.MNIST (by decide)
      ⟨cW1, by simp [sThree], by decide⟩).1 (Or.inl rfl) (by decide)
  · simp [sThree, cW1, cW2, cW3, finishedMnist, meanVecs, vecAdd]
    norm_num
  · exact (C3_aggregation_behaviour sChestThree
      TrainingType.CHEST_X_RAY_PNEUMONIA (by decide)
      ⟨cX1, by simp [sChestThree], by decide⟩).2 rfl (by decide)
  · simp [sChestThree, cX1, cX2, cX3, finishedChest, meanVecs, vecAdd]
    norm_num

/-- One idle registered client on an idle server, before any round. -/
def sReg : Server :=
  ⟨some ([0], [0]), none, [⟨"http://c", 1, ClientTrainingStatus.IDLE, none⟩],
   ServerStatus.IDLE, 0⟩

/-- State of `sReg` after a successfully dispatched round. -/
def sDispatched : Server :=
  ⟨some ([0], [0]), none,
   [⟨"http://c", 1, ClientTrainingStatus.TRAINING_REQUESTED, none⟩],
   ServerStatus.CLIENTS_TRAINING, 1⟩

/-- State of `sDispatched` after its only client reported `([1], [1])` and the
central parameters were aggregated. -/
def sAfterFirst : Server :=
  ⟨some ([1], [1]), none,
   [⟨"http://c", 1, ClientTrainingStatus.IDLE,
     some (ModelParams.mnistParams [1] [1])⟩],
   ServerStatus.IDLE, 1⟩

/-- State of `sAfterFirst` after the same client replayed a report with `([3], [3])`:
a SECOND aggregation in the same round. -/
def sAfterSecond : Server :=
  ⟨some ([3], [3]), none,
   [⟨"http://c", 1, ClientTrainingStatus.IDLE,
     some (ModelParams.mnistParams [3] [3])⟩],
   ServerStatus.IDLE, 1⟩

/-- C2 counterexample: the claim says the central update runs at most once
after a single `start_round`, guarded by a server-status transition that
only `CLIENTS_TRAINING` may take. There is no status guard in the code —
only the quorum predicate — so after one `start_training` a replayed report
callback aggregates a second time, entering `UPDATING_MODEL_PARAMS` from
`IDLE`: the central parameters change twice ( `([0],[0])` to `([1],[1])` to
`([3],[3])` ) while the round counter stays 1. -/
theorem C2_counterexample :
    sReg.start_training TrainingType.MNIST [DispatchResponse.ok_status 200] =
      .ok sDispatched ∧
    App.update_weights sDispatched "http://c" TrainingType.MNIST
      (ModelParams.mnistParams [1] [1]) = .ok (200, sAfterFirst) ∧
    App.update_weights sAfterFirst "http://c" TrainingType.MNIST
      (ModelParams.mnistParams [3] [3]) = .ok (200, sAfterSecond) ∧
    sAfterFirst.status = ServerStatus.IDLE ∧
    sAfterFirst.mnist_model_params ≠ sReg.mnist_model_params ∧
    sAfterSecond.mnist_model_params ≠ sAfterFirst.mnist_model_params ∧
    sAfterSecond.round = sDispatched.round := by
  refine ⟨rfl, ?_, ?_, rfl, ?_, ?_, rfl⟩
  · simp [App.update_weights, Server.update_client_model_params,
      Server.update_server_model_params, quorumAll, mnistGather, stackMean,
      vecAdd, sDispatched, sAfterFirst]
  · simp [App.update_weights, Server.update_client_model_params,
      Server.update_server_model_params, quorumAll, mnistGather, stackMean,
      vecAdd, sAfterFirst, sAfterSecond]
  · simp [sAfterFirst, sReg]
  · simp [sAfterSecond, sAfterFirst]

/-- C2 amended: aggregation is guarded only by the quorum predicate, not by
the server status: when quorum holds, `update_server_model_params` behaves
identically from EVERY server status (in particular `UPDATING_MODEL_PARAMS`
can be entered from `IDLE`, and a replayed report after a closed round can
trigger a second central update); when quorum fails the call changes
nothing. -/
theorem C2_quorum_is_only_guard (s : Server) (t : TrainingType)
    (st1 st2 : ServerStatus) :
    (quorumAll s.training_clients = true →
      Server.update_server_model_params { s with status := st1 } t =
        Server.update_server_model_params { s with status := st2 } t) ∧
    (quorumAll s.training_clients = false →
      s.update_server_model_params t = .ok s) := by
  constructor
  · intro hq
    unfold Server.update_server_model_params
    simp only [hq, ite_true]
  · intro hq
    unfold Server.update_server_model_params
    simp [hq]

/-- C2 witness: the amended claim at a concrete quorum-satisfying server
(aggregation behaves the same entered from `IDLE` as from
`CLIENTS_TRAINING`) and at a concrete quorum-violating server. -/
theorem C2_witness :
    (Server.update_server_model_params
        { sMixed with status := ServerStatus.IDLE } TrainingType.MNIST =
      Server.update_server_model_params
        { sMixed with status := ServerStatus.CLIENTS_TRAINING }
        TrainingType.MNIST) ∧
    (sReg.update_server_model_params TrainingType.MNIST = .ok sReg) :=
  ⟨(C2_quorum_is_only_guard sMixed TrainingType.MNIST ServerStatus.IDLE
      ServerStatus.CLIENTS_TRAINING).1 (by decide),
   (C2_quorum_is_only_guard sReg TrainingType.MNIST ServerStatus.IDLE
      ServerStatus.IDLE).2 (by decide)⟩

lemma update_server_model_params_round (s : Server) (t : TrainingType) :
    (resultState (s.update_server_model_params t)).round = s.round := by
  unfold Server.update_server_model_params
  by_cases hq : quorumAll s.training_clients = true
  · simp only [hq, ite_true]
    cases t with
    | MNIST =>
      cases hg : mnistGather s.training_clients with
      | error e => simp [resultState]
      | ok triple =>
        obtain ⟨ws, bs, cs1⟩ := triple
        cases hw : stackMean ws with
        | error e => simp [hw, resultState]
        | ok nw =>
          cases hb : stackMean bs with
          | error e => simp [hw, hb, resultState]
          | ok nb => simp [hw, hb, resultState]
    | DETERMINISTIC_MNIST =>
      cases hg : mnistGather s.training_clients with
      | error e => simp [resultState]
      | ok triple =>
        obtain ⟨ws, bs, cs1⟩ := triple
        cases hw : stackMean ws with
        | error e => simp [hw, resultState]
        | ok nw =>
          cases hb : stackMean bs with
          | error e => simp [hw, hb, resultState]
          | ok nb => simp [hw, hb, resultState]
    | CHEST_X_RAY_PNEUMONIA =>
      cases hg : chestGather s.training_clients with
      | error e => simp [resultState]
      | ok pair =>
        obtain ⟨ws, cs1⟩ := pair
        cases hw : stackMean ws with
        | error e => simp [hw, resultState]
        | ok nw => simp [hw, resultState]
    | GOSSIP_MNIST => simp [resultState]
    | UNKNOWN name => simp [resultState]
  · simp [hq, resultState]

lemma do_training_client_request_round (s : Server) (t : TrainingType)
    (url : String) (r : DispatchResponse) :
    (resultState (s.do_training_client_request t url r)).round = s.round := by
  unfold Server.do_training_client_request
  cases r with
  | transportFailure => rfl
  | ok_status code =>
    by_cases h : code = 200
    · simp [h, resultState]
    · simp only []
      rw [if_pos h]
      exact update_server_model_params_round _ t

lemma runDispatches_round (t : TrainingType) :
    ∀ (l : List (String × DispatchResponse)) (s : Server),
      (resultState (runDispatches t s l)).round = s.round := by
  intro l
  induction l with
  | nil => intro s; rfl
  | cons p rest ih =>
    intro s
    unfold runDispatches
    cases hd : s.do_training_client_request t p.1 p.2 with
    | ok s1 =>
      have h1 : s1.round = s.round := by
        have h := do_training_client_request_round s t p.1 p.2
        rw [hd] at h
        exact h
      rw [ih s1, h1]
    | error e =>
      have h := do_training_client_request_round s t p.1 p.2
      rw [hd] at h
      exact h

lemma start_training_round (s : Server) (t : TrainingType)
    (resps : List DispatchResponse) :
    (resultState (s.start_training t resps)).round = s.round ∨
    (resultState (s.start_training t resps)).round = s.round + 1 := by
  unfold Server.start_training
  by_cases h1 : s.status = ServerStatus.IDLE
  · by_cases h2 : s.training_clients.length = 0
    · left
      simp [h1, h2, resultState]
    · right
      simp only [h1, ne_eq, not_true_eq_false, if_false, h2, ite_false]
      cases hc : flConfig t with
      | none => simp [resultState]
      | some cfg =>
        simp only []
        rw [runDispatches_round]
  · left
    have hcond : s.status ≠ ServerStatus.IDLE := h1
    rw [if_pos hcond]
    rfl

/-- C7: if `start_training` is invoked while the server is not `IDLE` or
while the registry is empty, nothing happens — the unchanged state is
returned and no dispatch occurs; and the round counter never decreases
(it moves from `r` to at most `r + 1`, and only a server that passed the
idle check dispatches, so the counter is only advanced while the
coordinator is idle). -/
theorem C7_preconditions_and_round (s : Server) (t : TrainingType)
    (resps : List DispatchResponse) :
    ((s.status ≠ ServerStatus.IDLE ∨ s.training_clients = []) →
      s.start_training t resps = .ok s) ∧
    s.round ≤ (resultState (s.start_training t resps)).round ∧
    (resultState (s.start_training t resps)).round ≤ s.round + 1 := by
  refine ⟨?_, ?_, ?_⟩
  · intro h
    rcases h with h | h
    · unfold Server.start_training
      rw [if_pos h]
    · have h2 : s.training_clients.length = 0 := by simp [h]
      unfold Server.start_training
      by_cases hst : s.status ≠ ServerStatus.IDLE
      · rw [if_pos hst]
      · rw [if_neg hst, if_pos h2]
  · rcases start_training_round s t resps with h | h <;> omega
  · rcases start_training_round s t resps with h | h <;> omega

/-- A busy coordinator (mid-round) used to witness the precondition
violations of C7. -/
def sBusy : Server :=
  ⟨some ([5], [7]), none, [idleClient], ServerStatus.CLIENTS_TRAINING, 3⟩

/-- C7 witness: a round request on a busy server returns the state
unchanged and the round counter does not decrease. -/
theorem C7_witness :
    sBusy.start_training TrainingType.MNIST [DispatchResponse.ok_status 200] =
      .ok sBusy ∧
    sBusy.round ≤
      (resultState (sBusy.start_training TrainingType.MNIST
        [DispatchResponse.ok_status 200])).round :=
  ⟨(C7_preconditions_and_round sBusy TrainingType.MNIST
      [DispatchResponse.ok_status 200]).1 (Or.inl (by decide)),
   (C7_preconditions_and_round sBusy TrainingType.MNIST
      [DispatchResponse.ok_status 200]).2.1⟩

lemma finish_round_fold (rem : List String) :
    ∀ s : Server,
      rem ≠ [] → rem.Nodup →
      (∀ u, u ∈ rem ↔ ∃ c ∈ s.training_clients,
          c.client_url = u ∧
          c.status = ClientTrainingStatus.TRAINING_REQUESTED) →
      (∀ c ∈ s.training_clients,
          c.status = ClientTrainingStatus.TRAINING_REQUESTED ∨
          c.status = ClientTrainingStatus.TRAINING_FINISHED) →
      (rem.foldl (fun st u => Server.finish_round st TrainingType.GOSSIP_MNIST u)
          s).status = ServerStatus.IDLE ∧
      (∀ c ∈ (rem.foldl
          (fun st u => Server.finish_round st TrainingType.GOSSIP_MNIST u)
          s).training_clients, c.status = ClientTrainingStatus.IDLE) ∧
      (rem.foldl (fun st u => Server.finish_round st TrainingType.GOSSIP_MNIST u)
          s).mnist_model_params = s.mnist_model_params ∧
      (rem.foldl (fun st u => Server.finish_round st TrainingType.GOSSIP_MNIST u)
          s).chest_x_ray_model_params = s.chest_x_ray_model_params ∧
      (rem.foldl (fun st u => Server.finish_round st TrainingType.GOSSIP_MNIST u)
          s).round = s.round := by
  induction rem with
  | nil => intro s hne _ _ _; exact absurd rfl hne
  | cons u rest ih =>
    intro s _ hnd hiff hstat
    have hu_notin : u ∉ rest := (List.nodup_cons.mp hnd).1
    have hndr : rest.Nodup := (List.nodup_cons.mp hnd).2
    simp only [List.foldl_cons]
    by_cases hrest : rest = []
    · subst hrest
      have hall : quorumAll (set_client_status s.training_clients u
          ClientTrainingStatus.TRAINING_FINISHED) = true := by
        rw [quorumAll, List.all_eq_true]
        intro c1 hc1
        rw [set_client_status, List.mem_map] at hc1
        obtain ⟨c, hc, him⟩ := hc1
        by_cases hurl : c.client_url = u
        · rw [if_pos hurl] at him
          rw [← him]
          simp
        · rw [if_neg hurl] at him
          rw [← him]
          rcases hstat c hc with hst | hst
          · exfalso
            have hmem : c.client_url ∈ [u] :=
              (hiff c.client_url).mpr ⟨c, hc, rfl, hst⟩
            simp at hmem
            exact hurl hmem
          · rw [hst]
            simp
      simp only [List.foldl_nil]
      unfold Server.finish_round
      rw [if_pos ⟨hall, rfl⟩]
      refine ⟨rfl, ?_, rfl, rfl, rfl⟩
      intro c hc
      rw [List.mem_map] at hc
      obtain ⟨c0, _, him⟩ := hc
      rw [← him]
    · have hnotq : quorumAll (set_client_status s.training_clients u
          ClientTrainingStatus.TRAINING_FINISHED) ≠ true := by
        obtain ⟨v, hv⟩ := List.exists_mem_of_ne_nil rest hrest
        obtain ⟨c, hc, hcu, hcst⟩ :=
          (hiff v).mp (List.mem_cons_of_mem u hv)
        have hcune : c.client_url ≠ u := by
          rw [hcu]
          intro h
          exact hu_notin (h ▸ hv)
        intro hall
        rw [quorumAll, List.all_eq_true] at hall
        have hcmem : c ∈ set_client_status s.training_clients u
            ClientTrainingStatus.TRAINING_FINISHED := by
          rw [set_client_status]
          have hmm := List.mem_map_of_mem
            (fun c => if c.client_url = u then
              { c with status := ClientTrainingStatus.TRAINING_FINISHED }
            else c) hc
          simp only [if_neg hcune] at hmm
          exact hmm
        have := hall c hcmem
        rw [hcst] at this
        simp at this
      have hstep : Server.finish_round s TrainingType.GOSSIP_MNIST u =
          { s with training_clients :=
              (set_client_status s.training_clients u
                ClientTrainingStatus.TRAINING_FINISHED) } := by
        unfold Server.finish_round
        rw [if_neg (fun hcond => hnotq hcond.1)]
      rw [hstep]
      have hiff2 : ∀ v, v ∈ rest ↔
          ∃ c ∈ (set_client_status s.training_clients u
            ClientTrainingStatus.TRAINING_FINISHED),
          c.client_url = v ∧
          c.status = ClientTrainingStatus.TRAINING_REQUESTED := by
        intro v
        constructor
        · intro hv
          obtain ⟨c, hc, hcu, hcst⟩ :=
            (hiff v).mp (List.mem_cons_of_mem u hv)
          have hcune : c.client_url ≠ u := by
            rw [hcu]
            intro h
            exact hu_notin (h ▸ hv)
          refine ⟨c, ?_, hcu, hcst⟩
          rw [set_client_status]
          have hmm := List.mem_map_of_mem
            (fun c => if c.client_url = u then
              { c with status := ClientTrainingStatus.TRAINING_FINISHED }
            else c) hc
          simp only [if_neg hcune] at hmm
          exact hmm
        · rintro ⟨c1, hc1, hcu, hcst⟩
          rw [set_client_status, List.mem_map] at hc1
          obtain ⟨c, hc, him⟩ := hc1
          by_cases hurl : c.client_url = u
          · rw [if_pos hurl] at him
            rw [← him] at hcst
            simp at hcst
          · rw [if_neg hurl] at him
            rw [← him] at hcu hcst
            have hv : v ∈ u :: rest := (hiff v).mpr ⟨c, hc, hcu, hcst⟩
            rcases List.mem_cons.mp hv with h | h
            · exact absurd (hcu.trans h) hurl
            · exact h
      have hstat2 : ∀ c1 ∈ (set_client_status s.training_clients u
          ClientTrainingStatus.TRAINING_FINISHED),
          c1.status = ClientTrainingStatus.TRAINING_REQUESTED ∨
          c1.status = ClientTrainingStatus.TRAINING_FINISHED := by
        intro c1 hc1
        rw [set_client_status, List.mem_map] at hc1
        obtain ⟨c, hc, him⟩ := hc1
        by_cases hurl : c.client_url = u
        · rw [if_pos hurl] at him
          rw [← him]
          right
          rfl
        · rw [if_neg hurl] at him
          rw [← him]
          exact hstat c hc
      exact ih { s with training_clients :=
          (set_client_status s.training_clients u
            ClientTrainingStatus.TRAINING_FINISHED) }
        hrest hndr hiff2 hstat2

/-- C9: for the decentralized (`GOSSIP_MNIST`) variant, once every
registered participant — all in `TRAINING_REQUESTED` after dispatch — has
invoked the finish callback, in any order, the server status is `IDLE`,
every participant status is `IDLE`, and both central model parameter sets
(and the round counter) are exactly as before: no aggregation occurs. -/
theorem C9_decentralized_round (s : Server) (order : List String)
    (hne : s.training_clients ≠ [])
    (hnd : order.Nodup)
    (hcover : ∀ u, u ∈ order ↔
      u ∈ s.training_clients.map (fun c => c.client_url))
    (hreq : ∀ c ∈ s.training_clients,
      c.status = ClientTrainingStatus.TRAINING_REQUESTED) :
    (order.foldl (fun st u => Server.finish_round st TrainingType.GOSSIP_MNIST u)
        s).status = ServerStatus.IDLE ∧
    (∀ c ∈ (order.foldl
        (fun st u => Server.finish_round st TrainingType.GOSSIP_MNIST u)
        s).training_clients, c.status = ClientTrainingStatus.IDLE) ∧
    (order.foldl (fun st u => Server.finish_round st TrainingType.GOSSIP_MNIST u)
        s).mnist_model_params = s.mnist_model_params ∧
    (order.foldl (fun st u => Server.finish_round st TrainingType.GOSSIP_MNIST u)
        s).chest_x_ray_model_params = s.chest_x_ray_model_params ∧
    (order.foldl (fun st u => Server.finish_round st TrainingType.GOSSIP_MNIST u)
        s).round = s.round := by
  have horder : order ≠ [] := by
    obtain ⟨c, hc⟩ := List.exists_mem_of_ne_nil s.training_clients hne
    have hmem : c.client_url ∈ s.training_clients.map
        (fun c => c.client_url) := List.mem_map_of_mem _ hc
    have : c.client_url ∈ order := (hcover c.client_url).mpr hmem
    exact List.ne_nil_of_mem this
  have hiff : ∀ u, u ∈ order ↔ ∃ c ∈ s.training_clients,
      c.client_url = u ∧
      c.status = ClientTrainingStatus.TRAINING_REQUESTED := by
    intro u
    rw [hcover u, List.mem_map]
    constructor
    · rintro ⟨c, hc, hcu⟩
      exact ⟨c, hc, hcu, hreq c hc⟩
    · rintro ⟨c, hc, hcu, _⟩
      exact ⟨c, hc, hcu⟩
  have hstat : ∀ c ∈ s.training_clients,
      c.status = ClientTrainingStatus.TRAINING_REQUESTED ∨
      c.status = ClientTrainingStatus.TRAINING_FINISHED :=
    fun c hc => Or.inl (hreq c hc)
  exact finish_round_fold order s horder hnd hiff hstat

/-- Two gossip participants mid-round, both successfully dispatched. -/
def gClient1 : TrainingClient :=
  ⟨"http://g1", 1, ClientTrainingStatus.TRAINING_REQUESTED, none⟩

def gClient2 : TrainingClient :=
  ⟨"http://g2", 2, ClientTrainingStatus.TRAINING_REQUESTED, none⟩

def sGossip : Server :=
  ⟨some ([5], [7]), some [9], [gClient1, gClient2],
   ServerStatus.CLIENTS_TRAINING, 2⟩

/-- C9 witness: a concrete gossip round where the two participants finish
in the reverse of registry order. -/
theorem C9_witness :
    ((["http://g2", "http://g1"] : List String).foldl
        (fun st u => Server.finish_round st TrainingType.GOSSIP_MNIST u)
        sGossip).status = ServerStatus.IDLE ∧
    (∀ c ∈ ((["http://g2", "http://g1"] : List String).foldl
        (fun st u => Server.finish_round st TrainingType.GOSSIP_MNIST u)
        sGossip).training_clients, c.status = ClientTrainingStatus.IDLE) ∧
    ((["http://g2", "http://g1"] : List String).foldl
        (fun st u => Server.finish_round st TrainingType.GOSSIP_MNIST u)
        sGossip).mnist_model_params = sGossip.mnist_model_params ∧
    ((["http://g2", "http://g1"] : List String).foldl
        (fun st u => Server.finish_round st TrainingType.GOSSIP_MNIST u)
        sGossip).chest_x_ray_model_params =
      sGossip.chest_x_ray_model_params ∧
    ((["http://g2", "http://g1"] : List String).foldl
        (fun st u => Server.finish_round st TrainingType.GOSSIP_MNIST u)
        sGossip).round = sGossip.round :=
  C9_decentralized_round sGossip ["http://g2", "http://g1"]
    (by simp [sGossip]) (by decide)
    (by intro u
        simp [sGossip, gClient1, gClient2]
        tauto)
    (by decide)
